import Mathlib

/-!
Verification development for the AgentFlow real-time broadcast manager
(`backend/app/core/websocket_manager.py` and the WebSocket endpoints of
`backend/main.py`).

The Python `WebSocketManager` keeps four dictionaries:
  * `active_connections  : {connection_id: websocket}`
  * `channel_subscriptions : {channel: set(connection_ids)}`
  * `connection_metadata : {connection_id: metadata}`
  * `connection_channels : {connection_id: set(channels)}`

We embed Python dicts as association lists (insertion ordered, unique keys
arise by construction) and Python sets of strings as duplicate-free lists.
A websocket handle is modelled by an identifier together with a flag saying
whether `send_text` on it raises; `datetime.utcnow()` values are passed in
as explicit parameters.  A Python method that can raise an exception is
translated to return, alongside the post-state, a Boolean recording whether
the exception escaped (object state mutated before the raise persists,
exactly as in Python).
-/

/-- Transport handle.  `fails = true` means every `send_text` on this handle
raises; `clientHost` models `websocket.client.host`.  Python compares handles
by object identity; distinct handles get distinct `id`s. -/
structure WS where
  id : Nat
  fails : Bool
  clientHost : Option String
deriving DecidableEq

/-- Metadata record stored by `connect`:
`{"connected_at": ..., "user_id": None, "ip_address": ...}`. -/
structure ConnMeta where
  connected_at : String
  user_id : Option String
  ip_address : Option String
deriving DecidableEq

/-- A JSON-object payload, modelled as an ordered association list from field
names to (opaque) values.  The manager only ever reads or writes the
`"channel"` and `"timestamp"` fields; all other entries pass through. -/
def Msg : Type := List (String × String)

instance : DecidableEq Msg := by
  unfold Msg
  infer_instance

/-- Python dict lookup `d.get(k)` / `d[k]` (first matching key). -/
def dictLookup {α : Type} (d : List (String × α)) (k : String) : Option α :=
  match d with
  | [] => none
  | p :: rest => if p.1 = k then some p.2 else dictLookup rest k

/-- Python dict assignment `d[k] = v`: overwrite in place if the key exists,
otherwise append (insertion order preserved). -/
def dictInsert {α : Type} (d : List (String × α)) (k : String) (v : α) :
    List (String × α) :=
  match d with
  | [] => [(k, v)]
  | p :: rest => if p.1 = k then (k, v) :: rest else p :: dictInsert rest k v

/-- Python `del d[k]` / `d.pop(k, None)`.  Keys are unique in every state we
build, so removing every occurrence coincides with removing the key. -/
def dictErase {α : Type} (d : List (String × α)) (k : String) :
    List (String × α) :=
  d.filter (fun p => p.1 ≠ k)

/-- The keys of a dict, in order. -/
def dKeys {α : Type} (d : List (String × α)) : List String :=
  d.map Prod.fst

/-- Python `set.add`. -/
def setAdd (l : List String) (a : String) : List String :=
  if a ∈ l then l else l ++ [a]

/-- Python `set.discard`. -/
def setDiscard (l : List String) (a : String) : List String :=
  l.filter (fun x => x ≠ a)

/-- The full state of a `WebSocketManager` instance. -/
structure WSState where
  active_connections : List (String × WS)
  channel_subscriptions : List (String × List String)
  connection_metadata : List (String × ConnMeta)
  connection_channels : List (String × List String)
deriving DecidableEq

/-- The state built by `WebSocketManager.__init__`: four empty dicts. -/
def initState : WSState := ⟨[], [], [], []⟩

/-- `channel_subscriptions.get(ch, set())`, the subscriber set of a channel
(empty when the channel is absent). -/
def subsOf (s : WSState) (ch : String) : List String :=
  (dictLookup s.channel_subscriptions ch).getD []

/-- `connection_channels.get(cid, set())`, the channel set of a connection
(empty when the identity is absent). -/
def chansOf (s : WSState) (cid : String) : List String :=
  (dictLookup s.connection_channels cid).getD []

/-- `WebSocketManager._remove_connection`: drop the identity from
`active_connections`, discard it from every channel's subscriber set,
delete channels whose set became empty, and pop metadata and the
connection's channel set. -/
def remove_connection (s : WSState) (cid : String) : WSState :=
  { active_connections := dictErase s.active_connections cid,
    channel_subscriptions :=
      (s.channel_subscriptions.map (fun p => (p.1, setDiscard p.2 cid))).filter
        (fun p => p.2 ≠ []),
    connection_metadata := dictErase s.connection_metadata cid,
    connection_channels := dictErase s.connection_channels cid }

/-- `WebSocketManager.subscribe_connection`.  The source first ensures
`channel_subscriptions[channel]` exists and adds `connection_id` to it, and
only then evaluates `self.connection_channels[connection_id]` — which raises
`KeyError` when the identity is unknown.  The returned Boolean is `true`
exactly when that `KeyError` escapes; the mutation applied before the raise
persists. -/
def subscribe_connection (s : WSState) (cid ch : String) : WSState × Bool :=
  let cur := (dictLookup s.channel_subscriptions ch).getD []
  let s1 : WSState :=
    { s with channel_subscriptions :=
        dictInsert s.channel_subscriptions ch (setAdd cur cid) }
  match dictLookup s1.connection_channels cid with
  | none => (s1, true)
  | some chans =>
      ({ s1 with connection_channels :=
          dictInsert s1.connection_channels cid (setAdd chans ch) }, false)

/-- `WebSocketManager.unsubscribe_connection`: discard the identity from the
channel's subscriber set, deleting the channel entry if the set became
empty; then discard the channel from the identity's channel set if the
identity is known. -/
def unsubscribe_connection (s : WSState) (cid ch : String) : WSState :=
  let s1 : WSState :=
    match dictLookup s.channel_subscriptions ch with
    | none => s
    | some l =>
        let l' := setDiscard l cid
        if l' = [] then
          { s with channel_subscriptions := dictErase s.channel_subscriptions ch }
        else
          { s with channel_subscriptions := dictInsert s.channel_subscriptions ch l' }
  match dictLookup s1.connection_channels cid with
  | none => s1
  | some chans =>
      { s1 with connection_channels :=
          dictInsert s1.connection_channels cid (setDiscard chans ch) }

/-- `WebSocketManager.connect`: register the handle under a fresh
`connection_id` (the uuid is passed in as `cid`), store metadata, initialize
an empty channel set, optionally subscribe to `initial_channel`, then send
the welcome envelope.  The Boolean records whether the call raised (either
the `KeyError` path of `subscribe_connection`, or the welcome `send_text`
failing); state changes made before the raise persist. -/
def connect (s : WSState) (ws : WS) (cid : String) (initial : Option String)
    (now : String) : WSState × Bool :=
  let s1 : WSState :=
    { s with
      active_connections := dictInsert s.active_connections cid ws,
      connection_metadata :=
        dictInsert s.connection_metadata cid ⟨now, none, ws.clientHost⟩,
      connection_channels := dictInsert s.connection_channels cid [] }
  match initial with
  | none => (s1, ws.fails)
  | some ch =>
      let r := subscribe_connection s1 cid ch
      (r.1, r.2 || ws.fails)

/-- The reverse scan `for conn_id, ws in self.active_connections.items()`
used by `disconnect` and `subscribe`: first identity whose handle equals the
given one. -/
def findId (active : List (String × WS)) (ws : WS) : Option String :=
  match active with
  | [] => none
  | p :: rest => if p.2 = ws then some p.1 else findId rest ws

/-- `WebSocketManager.disconnect`: resolve the handle, then remove. -/
def disconnect (s : WSState) (ws : WS) : WSState :=
  match findId s.active_connections ws with
  | none => s
  | some cid => remove_connection s cid

/-- `WebSocketManager.disconnect_by_id`. -/
def disconnect_by_id (s : WSState) (cid : String) : WSState :=
  remove_connection s cid

/-- The `for channel in channels` loop of `WebSocketManager.subscribe`: a
raise inside `subscribe_connection` aborts the remaining iterations. -/
def subscribeList (s : WSState) (cid : String) : List String → WSState × Bool
  | [] => (s, false)
  | ch :: rest =>
      let r := subscribe_connection s cid ch
      if r.2 then (r.1, true) else subscribeList r.1 cid rest

/-- `WebSocketManager.subscribe` (websocket-level): resolve the identity;
unknown handles log a warning and return.  After subscribing, the
confirmation `send_text` raises when the handle fails. -/
def subscribe (s : WSState) (ws : WS) (channels : List String) :
    WSState × Bool :=
  match findId s.active_connections ws with
  | none => (s, false)
  | some cid =>
      let r := subscribeList s cid channels
      (r.1, r.2 || ws.fails)

/-- Resolution of the `exclude` argument of `broadcast_to_channel`:
`if exclude:` followed by the scan over `active_connections`. -/
def resolveExclude (s : WSState) (ex : Option WS) : Option String :=
  match ex with
  | none => none
  | some w => findId s.active_connections w

/-- The fan-out loop of `broadcast_to_channel`: iterate the subscriber set,
skip the excluded identity, skip identities with no active handle, attempt a
write on the rest, appending identities whose write raised to
`failed_connections`.  Returns (attempted identities, failed identities), in
iteration order. -/
def fanOut (active : List (String × WS)) (exclId : Option String) :
    List String → List String × List String
  | [] => ([], [])
  | cid :: rest =>
      if exclId = some cid then fanOut active exclId rest
      else
        match dictLookup active cid with
        | none => fanOut active exclId rest
        | some w =>
            let r := fanOut active exclId rest
            (cid :: r.1, if w.fails then cid :: r.2 else r.2)

/-- The delivery report described by the specification (`{attempted, failed
identities}`).  The Python function never constructs one. -/
structure DeliveryReport where
  attempted : List String
  failed : List String
deriving DecidableEq

/-- Observable outcome of one `broadcast_to_channel` call.  `messageOut` is
the contents of the caller's `message` dict after the call (the source
mutates it in place via `message.update`).  `retval` is the Python return
value: every `return` in the source is bare, so it is always `none` — there
is no delivery report.  `raised` records the `KeyError` that escapes from
the final `logger.debug` line when the eviction pass deleted the channel's
entry (`len(self.channel_subscriptions[channel])` on an absent key). -/
structure BroadcastResult where
  state : WSState
  attempted : List String
  failed : List String
  messageOut : Msg
  retval : Option DeliveryReport
  raised : Bool
deriving DecidableEq

/-- `WebSocketManager.broadcast_to_channel`: early bare return when the
channel has no entry; otherwise resolve `exclude`, enrich the payload with
`channel` and `timestamp`, run the fan-out loop against the pre-state, and
only afterwards evict every failed identity via `_remove_connection`. -/
def broadcast_to_channel (s : WSState) (channel : String) (message : Msg)
    (exclude : Option WS) (now : String) : BroadcastResult :=
  match dictLookup s.channel_subscriptions channel with
  | none => ⟨s, [], [], message, none, false⟩
  | some subs =>
      let exclId := resolveExclude s exclude
      let msg' := dictInsert (dictInsert message "channel" channel) "timestamp" now
      let r := fanOut s.active_connections exclId subs
      let s' := r.2.foldl remove_connection s
      ⟨s', r.1, r.2, msg', none,
        (dictLookup s'.channel_subscriptions channel).isNone⟩

/-- Observable outcome of one `send_to_connection` call.  `success` is the
Python return value; `messageOut` is the caller's dict after the call. -/
structure SendResult where
  state : WSState
  success : Bool
  messageOut : Msg
deriving DecidableEq

/-- `WebSocketManager.send_to_connection`: unknown identity logs a warning
and returns `False` before touching the payload; otherwise the payload is
enriched with `timestamp` and one write is attempted — on failure the
identity is evicted via `_remove_connection` and `False` is returned. -/
def send_to_connection (s : WSState) (cid : String) (message : Msg)
    (now : String) : SendResult :=
  match dictLookup s.active_connections cid with
  | none => ⟨s, false, message⟩
  | some w =>
      let msg' := dictInsert message "timestamp" now
      if w.fails then ⟨remove_connection s cid, false, msg'⟩
      else ⟨s, true, msg'⟩

/-- One inbound frame on the generic `/ws` endpoint, as dispatched by
`websocket_endpoint`: `malformed` covers data on which `json.loads` (or the
subsequent attribute access on a non-object) raises; `subscribeMsg` and
`ping` are the two recognized envelope types; `otherObj` is a well-formed
JSON object of any other type. -/
inductive Inbound where
  | malformed : Inbound
  | subscribeMsg : List String → Inbound
  | ping : String → Inbound
  | otherObj : Inbound
deriving DecidableEq

/-- Whether the endpoint's receive loop continues after the frame. -/
inductive StepOutcome where
  | next : StepOutcome
  | stopped : StepOutcome
deriving DecidableEq

/-- One iteration of the receive loop of `websocket_endpoint` (`/ws` in
`backend/main.py`).  Any exception — including a JSON parse failure — is
caught by `except Exception`, which logs and calls
`websocket_manager.disconnect(websocket)`, ending the loop. -/
def websocket_endpoint_step (s : WSState) (ws : WS) (msg : Inbound) :
    WSState × StepOutcome :=
  match msg with
  | .malformed => (disconnect s ws, .stopped)
  | .subscribeMsg channels =>
      let r := subscribe s ws channels
      if r.2 then (disconnect r.1 ws, .stopped) else (r.1, .next)
  | .ping _ =>
      if ws.fails then (disconnect s ws, .stopped) else (s, .next)
  | .otherObj => (s, .next)

/-- One iteration of the receive loop of `workflow_websocket`
(`/ws/workflow/{workflow_id}`).  `none` models data on which `json.loads`
raises: only `WebSocketDisconnect` is caught there, so the exception
propagates, ending the handler without any manager cleanup.  A parsed
message is re-broadcast to the workflow channel with the sender excluded. -/
def workflow_websocket_step (s : WSState) (ws : WS) (workflow_id : String)
    (inbound : Option Msg) (now : String) : WSState × StepOutcome :=
  match inbound with
  | none => (s, .stopped)
  | some m =>
      ((broadcast_to_channel s ("workflow:" ++ workflow_id) m (some ws) now).state,
        .next)

/-- The manager operations named by the specification's invariant claims
(connect, subscribe, unsubscribe, disconnect, broadcast, send), each
carrying the environment inputs Python obtains implicitly (fresh uuid,
current time, transport handles). -/
inductive Op where
  | connectOp : String → WS → Option String → String → Op
  | disconnectOp : WS → Op
  | disconnectByIdOp : String → Op
  | subscribeConnOp : String → String → Op
  | unsubscribeConnOp : String → String → Op
  | subscribeWsOp : WS → List String → Op
  | broadcastOp : String → Msg → Option WS → String → Op
  | sendOp : String → Msg → String → Op
deriving DecidableEq

/-- State transformer of one operation (the manager object's state after the
call, whether or not the call raised). -/
def applyOp (s : WSState) : Op → WSState
  | .connectOp cid ws initial now => (connect s ws cid initial now).1
  | .disconnectOp ws => disconnect s ws
  | .disconnectByIdOp cid => disconnect_by_id s cid
  | .subscribeConnOp cid ch => (subscribe_connection s cid ch).1
  | .unsubscribeConnOp cid ch => unsubscribe_connection s cid ch
  | .subscribeWsOp ws channels => (subscribe s ws channels).1
  | .broadcastOp ch m ex now => (broadcast_to_channel s ch m ex now).state
  | .sendOp cid m now => (send_to_connection s cid m now).state

/-- Run a sequence of operations from a state. -/
def run (s : WSState) (ops : List Op) : WSState :=
  ops.foldl applyOp s

/-- States reachable from a fresh manager by any operation sequence at all
(no well-formedness restriction: unknown identities, colliding uuids and
failing transports included). -/
inductive Reachable : WSState → Prop where
  | init : Reachable initState
  | step (s : WSState) (op : Op) : Reachable s → Reachable (applyOp s op)

/-- Well-formedness of one operation in a state: `connect` mints an identity
not already registered (uuid freshness), and `subscribe_connection` is only
invoked with a registered identity — which is how every call site in the
repository uses it. -/
def WfOp (s : WSState) : Op → Prop
  | .connectOp cid _ _ _ => dictLookup s.active_connections cid = none
  | .subscribeConnOp cid _ => (dictLookup s.active_connections cid).isSome
  | _ => True

instance (s : WSState) (op : Op) : Decidable (WfOp s op) := by
  cases op <;> simp only [WfOp] <;> infer_instance

/-- States reachable by well-formed operation sequences. -/
inductive ReachableWf : WSState → Prop where
  | init : ReachableWf initState
  | step (s : WSState) (op : Op) :
      ReachableWf s → WfOp s op → ReachableWf (applyOp s op)

/-- Mutual consistency of the two subscription indices: an identity is in a
channel's subscriber set iff the channel is in the identity's channel set. -/
def Consistent (s : WSState) : Prop :=
  ∀ cid ch, cid ∈ subsOf s ch ↔ ch ∈ chansOf s cid

/-- Every entry of the channel index has a nonempty subscriber set. -/
def NonemptyChannels (s : WSState) : Prop :=
  ∀ p, p ∈ s.channel_subscriptions → p.2 ≠ []

/-! ### Concrete fixture states -/

/-- One registered connection `A` (working transport, handle id 1)
subscribed to channel `c`; reachable via
`connect(ws, initial_channel="c")`. -/
def sOneSub : WSState :=
  ⟨[("A", ⟨1, false, none⟩)], [("c", ["A"])],
   [("A", ⟨"t0", none, none⟩)], [("A", ["c"])]⟩

/-- Two registered subscribers of channel `c`: `A` with a working transport
and `B` whose transport fails every write. -/
def sTwoSub : WSState :=
  ⟨[("A", ⟨1, false, none⟩), ("B", ⟨2, true, none⟩)],
   [("c", ["A", "B"])],
   [("A", ⟨"t0", none, none⟩), ("B", ⟨"t0", none, none⟩)],
   [("A", ["c"]), ("B", ["c"])]⟩

/-- Registered connection `A` plus a stale identity `ghost` that sits in
channel `c`'s subscriber set but is absent from the registry. -/
def sGhost : WSState :=
  ⟨[("A", ⟨1, false, none⟩)], [("c", ["A", "ghost"])],
   [("A", ⟨"t0", none, none⟩)], [("A", ["c"])]⟩

/-! ### Dictionary and set lemmas -/

theorem dictInsert_cons_eq {α : Type} (a : String) (b : α) (rest : List (String × α))
    (k : String) (v : α) (h : a = k) :
    dictInsert ((a, b) :: rest) k v = (k, v) :: rest := by
  simp [dictInsert, h]

theorem dictInsert_cons_ne {α : Type} (a : String) (b : α) (rest : List (String × α))
    (k : String) (v : α) (h : ¬ a = k) :
    dictInsert ((a, b) :: rest) k v = (a, b) :: dictInsert rest k v := by
  simp [dictInsert, h]

theorem dictErase_cons {α : Type} (a : String) (b : α) (rest : List (String × α))
    (k : String) :
    dictErase ((a, b) :: rest) k =
      if a = k then dictErase rest k else (a, b) :: dictErase rest k := by
  by_cases h : a = k <;> simp [dictErase, h]

theorem dictLookup_insert {α : Type} (d : List (String × α)) (k : String)
    (v : α) (k' : String) :
    dictLookup (dictInsert d k v) k' =
      if k = k' then some v else dictLookup d k' := by
  induction d with
  | nil => simp [dictInsert, dictLookup]
  | cons p rest ih =>
      rcases p with ⟨a, b⟩
      by_cases hp : a = k
      · rw [dictInsert_cons_eq a b rest k v hp]
        by_cases h : k = k'
        · simp [dictLookup, h]
        · have ha : ¬ a = k' := fun e => h (hp.symm.trans e)
          simp [dictLookup, h, ha]
      · rw [dictInsert_cons_ne a b rest k v hp]
        by_cases hk : a = k'
        · have h : ¬ k = k' := fun e => hp (hk.trans e.symm)
          simp [dictLookup, hk, h]
        · simp [dictLookup, hk, ih]

theorem dictLookup_erase {α : Type} (d : List (String × α)) (k k' : String) :
    dictLookup (dictErase d k) k' =
      if k = k' then none else dictLookup d k' := by
  induction d with
  | nil => simp [dictErase, dictLookup]
  | cons p rest ih =>
      rcases p with ⟨a, b⟩
      rw [dictErase_cons]
      by_cases hp : a = k
      · rw [if_pos hp, ih]
        by_cases h : k = k'
        · simp [h]
        · have ha : ¬ a = k' := fun e => h (hp.symm.trans e)
          simp [dictLookup, h, ha]
      · rw [if_neg hp]
        by_cases hk : a = k'
        · have h : ¬ k = k' := fun e => hp (hk.trans e.symm)
          simp [dictLookup, hk, h]
        · simp [dictLookup, hk, ih]

theorem dictLookup_mem {α : Type} {d : List (String × α)} {k : String}
    {v : α} (h : dictLookup d k = some v) : (k, v) ∈ d := by
  induction d with
  | nil => simp [dictLookup] at h
  | cons p rest ih =>
      by_cases hp : p.1 = k
      · simp [dictLookup, hp] at h
        have : p = (k, v) := by
          rcases p with ⟨a, b⟩
          simp at hp h
          simp [hp, h]
        rw [← this]
        exact List.mem_cons_self _ _
      · simp [dictLookup, hp] at h
        exact List.mem_cons_of_mem _ (ih h)

theorem dictLookup_eq_none_iff {α : Type} {d : List (String × α)}
    {k : String} : dictLookup d k = none ↔ k ∉ dKeys d := by
  induction d with
  | nil => simp [dictLookup, dKeys]
  | cons p rest ih =>
      by_cases hp : p.1 = k
      · simp [dictLookup, hp, dKeys]
      · simp [dictLookup, hp, dKeys] at ih ⊢
        refine ⟨fun h => ⟨fun e => hp e.symm, ih.mp h⟩, fun h => ih.mpr h.2⟩

theorem dictLookup_isSome_of_mem_keys {α : Type} {d : List (String × α)}
    {k : String} (h : k ∈ dKeys d) : (dictLookup d k).isSome := by
  cases he : dictLookup d k with
  | none => exact absurd (dictLookup_eq_none_iff.mp he) (by simp [h])
  | some v => simp

theorem mem_dictInsert {α : Type} {d : List (String × α)} {k : String}
    {v : α} {p : String × α} (h : p ∈ dictInsert d k v) :
    p = (k, v) ∨ p ∈ d := by
  induction d with
  | nil => simp [dictInsert] at h; simp [h]
  | cons q rest ih =>
      rcases q with ⟨a, b⟩
      by_cases hq : a = k
      · rw [dictInsert_cons_eq a b rest k v hq] at h
        rcases List.mem_cons.mp h with h' | h'
        · exact Or.inl h'
        · exact Or.inr (List.mem_cons_of_mem _ h')
      · rw [dictInsert_cons_ne a b rest k v hq] at h
        rcases List.mem_cons.mp h with h' | h'
        · exact Or.inr (by simp [h'])
        · rcases ih h' with h'' | h''
          · exact Or.inl h''
          · exact Or.inr (List.mem_cons_of_mem _ h'')

theorem mem_dKeys_dictInsert {α : Type} {d : List (String × α)}
    {k x : String} {v : α} :
    x ∈ dKeys (dictInsert d k v) ↔ x ∈ dKeys d ∨ x = k := by
  induction d with
  | nil => simp [dictInsert, dKeys]
  | cons q rest ih =>
      rcases q with ⟨a, b⟩
      by_cases hq : a = k
      · rw [dictInsert_cons_eq a b rest k v hq]
        have h1 : dKeys ((k, v) :: rest) = k :: dKeys rest := rfl
        have h2 : dKeys ((a, b) :: rest) = a :: dKeys rest := rfl
        rw [h1, h2, hq]
        simp
        tauto
      · rw [dictInsert_cons_ne a b rest k v hq]
        have h1 : dKeys ((a, b) :: dictInsert rest k v)
            = a :: dKeys (dictInsert rest k v) := rfl
        have h2 : dKeys ((a, b) :: rest) = a :: dKeys rest := rfl
        rw [h1, h2]
        simp [ih]
        tauto

theorem nodup_dKeys_dictInsert {α : Type} {d : List (String × α)}
    {k : String} {v : α} (h : (dKeys d).Nodup) :
    (dKeys (dictInsert d k v)).Nodup := by
  induction d with
  | nil => simp [dictInsert, dKeys]
  | cons q rest ih =>
      rcases q with ⟨a, b⟩
      have hcons : dKeys ((a, b) :: rest) = a :: dKeys rest := rfl
      rw [hcons, List.nodup_cons] at h
      by_cases hq : a = k
      · rw [dictInsert_cons_eq a b rest k v hq]
        have h1 : dKeys ((k, v) :: rest) = k :: dKeys rest := rfl
        rw [h1, List.nodup_cons]
        exact ⟨by rw [← hq]; exact h.1, h.2⟩
      · rw [dictInsert_cons_ne a b rest k v hq]
        have h1 : dKeys ((a, b) :: dictInsert rest k v)
            = a :: dKeys (dictInsert rest k v) := rfl
        rw [h1, List.nodup_cons]
        refine ⟨fun hx => ?_, ih h.2⟩
        rcases mem_dKeys_dictInsert.mp hx with h' | h'
        · exact h.1 h'
        · exact hq h'

theorem mem_setAdd {l : List String} {a x : String} :
    x ∈ setAdd l a ↔ x ∈ l ∨ x = a := by
  unfold setAdd
  by_cases h : a ∈ l
  · simp [h]
    intro he
    exact he ▸ h
  · simp [h]

theorem setAdd_ne_nil (l : List String) (a : String) : setAdd l a ≠ [] := by
  unfold setAdd
  by_cases h : a ∈ l
  · simp [h]
    rintro rfl
    simp at h
  · simp [h]

theorem mem_setDiscard {l : List String} {a x : String} :
    x ∈ setDiscard l a ↔ x ∈ l ∧ x ≠ a := by
  simp [setDiscard, List.mem_filter]

theorem setDiscard_self_not_mem (l : List String) (a : String) :
    a ∉ setDiscard l a := by
  simp [mem_setDiscard]

/-! ### How each operation transforms the two indices -/

theorem lookup_discard_map_none (d : List (String × List String))
    (cid ch : String) (h : ch ∉ dKeys d) :
    dictLookup ((d.map (fun p => (p.1, setDiscard p.2 cid))).filter
      (fun p => p.2 ≠ [])) ch = none := by
  induction d with
  | nil => simp [dictLookup]
  | cons p rest ih =>
      have hne : ¬ p.1 = ch := by
        intro e
        exact h (by simp [dKeys, e])
      have hrest : ch ∉ dKeys rest := fun hm => h (by simp [dKeys] at hm ⊢; tauto)
      rw [List.map_cons, List.filter_cons]
      by_cases he : setDiscard p.2 cid = []
      · simp only [he]
        simpa using ih hrest
      · have hff : (decide ((p.1, setDiscard p.2 cid).2 ≠ [])) = true := by
          simp [he]
        simp only [hff, if_pos]
        rw [show dictLookup ((p.1, setDiscard p.2 cid) ::
          (rest.map (fun p => (p.1, setDiscard p.2 cid))).filter
            (fun p => p.2 ≠ [])) ch
          = dictLookup ((rest.map (fun p => (p.1, setDiscard p.2 cid))).filter
            (fun p => p.2 ≠ [])) ch from by simp [dictLookup, hne]]
        exact ih hrest

theorem lookup_discard_map_none_of_nil (d : List (String × List String))
    (cid ch : String) (l : List String)
    (hnd : (dKeys d).Nodup) (hl : dictLookup d ch = some l)
    (hemp : setDiscard l cid = []) :
    dictLookup ((d.map (fun p => (p.1, setDiscard p.2 cid))).filter
      (fun p => p.2 ≠ [])) ch = none := by
  induction d with
  | nil => simp [dictLookup] at hl
  | cons p rest ih =>
      have hcons : dKeys (p :: rest) = p.1 :: dKeys rest := rfl
      rw [hcons, List.nodup_cons] at hnd
      rw [List.map_cons, List.filter_cons]
      by_cases hp : p.1 = ch
      · have hpl : p.2 = l := by
          simp [dictLookup, hp] at hl
          exact hl
        have he : setDiscard p.2 cid = [] := hpl ▸ hemp
        simp only [he]
        simpa using lookup_discard_map_none rest cid ch (hp ▸ hnd.1)
      · have hl' : dictLookup rest ch = some l := by
          simpa [dictLookup, hp] using hl
        by_cases he : setDiscard p.2 cid = []
        · simp only [he]
          simpa using ih hnd.2 hl'
        · have hff : (decide ((p.1, setDiscard p.2 cid).2 ≠ [])) = true := by
            simp [he]
          simp only [hff, if_pos]
          rw [show dictLookup ((p.1, setDiscard p.2 cid) ::
            (rest.map (fun p => (p.1, setDiscard p.2 cid))).filter
              (fun p => p.2 ≠ [])) ch
            = dictLookup ((rest.map (fun p => (p.1, setDiscard p.2 cid))).filter
              (fun p => p.2 ≠ [])) ch from by simp [dictLookup, hp]]
          exact ih hnd.2 hl'

theorem lookup_discard_map (d : List (String × List String)) (cid ch : String)
    (hnd : (dKeys d).Nodup) :
    (dictLookup ((d.map (fun p => (p.1, setDiscard p.2 cid))).filter
        (fun p => p.2 ≠ [])) ch).getD []
      = setDiscard ((dictLookup d ch).getD []) cid := by
  induction d with
  | nil => simp [dictLookup, setDiscard]
  | cons p rest ih =>
      have hcons : dKeys (p :: rest) = p.1 :: dKeys rest := rfl
      rw [hcons, List.nodup_cons] at hnd
      rw [List.map_cons, List.filter_cons]
      by_cases hp : p.1 = ch
      · by_cases he : setDiscard p.2 cid = []
        · have hnone := lookup_discard_map_none rest cid ch (hp ▸ hnd.1)
          simp only [he]
          simp [dictLookup, hp, he]
          simp at hnone
          simp [hnone]
        · have hff : (decide ((p.1, setDiscard p.2 cid).2 ≠ [])) = true := by
            simp [he]
          simp only [hff, if_pos]
          simp [dictLookup, hp]
      · by_cases he : setDiscard p.2 cid = []
        · simp only [he]
          simpa [dictLookup, hp] using ih hnd.2
        · have hff : (decide ((p.1, setDiscard p.2 cid).2 ≠ [])) = true := by
            simp [he]
          simp only [hff, if_pos]
          rw [show dictLookup ((p.1, setDiscard p.2 cid) ::
            (rest.map (fun p => (p.1, setDiscard p.2 cid))).filter
              (fun p => p.2 ≠ [])) ch
            = dictLookup ((rest.map (fun p => (p.1, setDiscard p.2 cid))).filter
              (fun p => p.2 ≠ [])) ch from by simp [dictLookup, hp]]
          simpa [dictLookup, hp] using ih hnd.2

theorem subsOf_remove (s : WSState) (cid ch : String)
    (hnd : (dKeys s.channel_subscriptions).Nodup) :
    subsOf (remove_connection s cid) ch = setDiscard (subsOf s ch) cid := by
  unfold subsOf remove_connection
  exact lookup_discard_map s.channel_subscriptions cid ch hnd

theorem chansOf_remove (s : WSState) (cid x : String) :
    chansOf (remove_connection s cid) x = if x = cid then [] else chansOf s x := by
  unfold chansOf remove_connection
  simp only [dictLookup_erase]
  by_cases h : x = cid
  · simp [h]
  · have : ¬ cid = x := fun e => h e.symm
    simp [h, this]

theorem active_remove (s : WSState) (cid x : String) :
    dictLookup (remove_connection s cid).active_connections x =
      if x = cid then none else dictLookup s.active_connections x := by
  unfold remove_connection
  simp only [dictLookup_erase]
  by_cases h : x = cid
  · simp [h]
  · have : ¬ cid = x := fun e => h e.symm
    simp [h, this]

theorem cch_remove (s : WSState) (cid x : String) :
    dictLookup (remove_connection s cid).connection_channels x =
      if x = cid then none else dictLookup s.connection_channels x := by
  unfold remove_connection
  simp only [dictLookup_erase]
  by_cases h : x = cid
  · simp [h]
  · have : ¬ cid = x := fun e => h e.symm
    simp [h, this]

theorem nodup_subs_remove (s : WSState) (cid : String)
    (hnd : (dKeys s.channel_subscriptions).Nodup) :
    (dKeys (remove_connection s cid).channel_subscriptions).Nodup := by
  unfold remove_connection
  have hmap : dKeys (s.channel_subscriptions.map
      (fun p => (p.1, setDiscard p.2 cid))) = dKeys s.channel_subscriptions := by
    simp [dKeys, List.map_map]
  have hsub : List.Sublist
      (dKeys ((s.channel_subscriptions.map
        (fun p => (p.1, setDiscard p.2 cid))).filter (fun p => p.2 ≠ [])))
      (dKeys (s.channel_subscriptions.map (fun p => (p.1, setDiscard p.2 cid)))) :=
    (List.filter_sublist _).map Prod.fst
  exact ((hmap ▸ hsub).nodup hnd)

theorem subscribe_state_known (s : WSState) (cid ch : String)
    (chans : List String)
    (h : dictLookup s.connection_channels cid = some chans) :
    subscribe_connection s cid ch =
      ({ s with
          channel_subscriptions :=
            dictInsert s.channel_subscriptions ch (setAdd (subsOf s ch) cid),
          connection_channels :=
            dictInsert s.connection_channels cid (setAdd chans ch) }, false) := by
  simp [subscribe_connection, subsOf, h]

theorem subscribe_state_unknown (s : WSState) (cid ch : String)
    (h : dictLookup s.connection_channels cid = none) :
    subscribe_connection s cid ch =
      ({ s with
          channel_subscriptions :=
            dictInsert s.channel_subscriptions ch (setAdd (subsOf s ch) cid) },
        true) := by
  simp [subscribe_connection, subsOf, h]

theorem subsOf_subscribe (s : WSState) (cid ch ch' : String) :
    subsOf (subscribe_connection s cid ch).1 ch' =
      if ch = ch' then setAdd (subsOf s ch) cid else subsOf s ch' := by
  cases h : dictLookup s.connection_channels cid with
  | none =>
      rw [subscribe_state_unknown s cid ch h]
      simp only [subsOf, dictLookup_insert]
      by_cases he : ch = ch' <;> simp [he]
  | some chans =>
      rw [subscribe_state_known s cid ch chans h]
      simp only [subsOf, dictLookup_insert]
      by_cases he : ch = ch' <;> simp [he]

theorem chansOf_subscribe_known (s : WSState) (cid ch x : String)
    (chans : List String)
    (h : dictLookup s.connection_channels cid = some chans) :
    chansOf (subscribe_connection s cid ch).1 x =
      if cid = x then setAdd chans ch else chansOf s x := by
  rw [subscribe_state_known s cid ch chans h]
  simp only [chansOf, dictLookup_insert]
  by_cases he : cid = x <;> simp [he]

theorem nodup_subs_subscribe (s : WSState) (cid ch : String)
    (hnd : (dKeys s.channel_subscriptions).Nodup) :
    (dKeys (subscribe_connection s cid ch).1.channel_subscriptions).Nodup := by
  cases h : dictLookup s.connection_channels cid with
  | none =>
      rw [subscribe_state_unknown s cid ch h]
      exact nodup_dKeys_dictInsert hnd
  | some chans =>
      rw [subscribe_state_known s cid ch chans h]
      exact nodup_dKeys_dictInsert hnd

theorem unsub_active (s : WSState) (cid ch : String) :
    (unsubscribe_connection s cid ch).active_connections =
      s.active_connections := by
  unfold unsubscribe_connection
  cases h1 : dictLookup s.channel_subscriptions ch with
  | none =>
      cases h2 : dictLookup s.connection_channels cid <;> simp [h2]
  | some l =>
      by_cases he : setDiscard l cid = [] <;>
        cases h2 : dictLookup s.connection_channels cid <;>
        simp [he, h2]

theorem unsub_meta (s : WSState) (cid ch : String) :
    (unsubscribe_connection s cid ch).connection_metadata =
      s.connection_metadata := by
  unfold unsubscribe_connection
  cases h1 : dictLookup s.channel_subscriptions ch with
  | none =>
      cases h2 : dictLookup s.connection_channels cid <;> simp [h2]
  | some l =>
      by_cases he : setDiscard l cid = [] <;>
        cases h2 : dictLookup s.connection_channels cid <;>
        simp [he, h2]

theorem subscribe_active (s : WSState) (cid ch : String) :
    (subscribe_connection s cid ch).1.active_connections =
      s.active_connections := by
  unfold subscribe_connection
  cases h2 : dictLookup s.connection_channels cid <;> simp [h2]

theorem subscribe_meta (s : WSState) (cid ch : String) :
    (subscribe_connection s cid ch).1.connection_metadata =
      s.connection_metadata := by
  unfold subscribe_connection
  cases h2 : dictLookup s.connection_channels cid <;> simp [h2]

theorem subsOf_unsub (s : WSState) (cid ch ch' : String) :
    subsOf (unsubscribe_connection s cid ch) ch' =
      if ch = ch' then setDiscard (subsOf s ch) cid else subsOf s ch' := by
  unfold unsubscribe_connection subsOf
  cases h1 : dictLookup s.channel_subscriptions ch with
  | none =>
      cases h2 : dictLookup s.connection_channels cid with
      | none =>
          by_cases he : ch = ch' <;> simp [h1, h2, he, setDiscard]
          simp [← he, h1, setDiscard]
      | some chans =>
          by_cases he : ch = ch' <;> simp [h1, h2, he, setDiscard]
          simp [← he, h1, setDiscard]
  | some l =>
      by_cases hemp : setDiscard l cid = []
      · have hnil : setDiscard l cid = [] := hemp
        cases h2 : dictLookup s.connection_channels cid with
        | none =>
            by_cases he : ch = ch' <;>
              simp [h1, hemp, h2, dictLookup_erase, he, hnil]
        | some chans =>
            by_cases he : ch = ch' <;>
              simp [h1, hemp, h2, dictLookup_erase, he, hnil]
      · cases h2 : dictLookup s.connection_channels cid with
        | none =>
            by_cases he : ch = ch' <;>
              simp [h1, hemp, h2, dictLookup_insert, he]
        | some chans =>
            by_cases he : ch = ch' <;>
              simp [h1, hemp, h2, dictLookup_insert, he]

theorem chansOf_unsub (s : WSState) (cid ch x : String) :
    chansOf (unsubscribe_connection s cid ch) x =
      if cid = x then setDiscard (chansOf s cid) ch else chansOf s x := by
  unfold unsubscribe_connection chansOf
  cases h1 : dictLookup s.channel_subscriptions ch with
  | none =>
      cases h2 : dictLookup s.connection_channels cid with
      | none =>
          by_cases he : cid = x
          · subst he
            simp [h1, h2, setDiscard]
          · simp [h1, h2, he]
      | some chans =>
          by_cases he : cid = x
          · subst he
            simp [h1, h2, dictLookup_insert]
          · simp [h1, h2, dictLookup_insert, he]
  | some l =>
      simp only [h1]
      by_cases hemp : setDiscard l cid = []
      · rw [if_pos hemp]
        cases h2 : dictLookup s.connection_channels cid with
        | none =>
            by_cases he : cid = x
            · subst he
              simp [h2, setDiscard]
            · simp [h2, he]
        | some chans =>
            by_cases he : cid = x
            · subst he
              simp [h2, dictLookup_insert]
            · simp [h2, dictLookup_insert, he]
      · rw [if_neg hemp]
        cases h2 : dictLookup s.connection_channels cid with
        | none =>
            by_cases he : cid = x
            · subst he
              simp [h2, setDiscard]
            · simp [h2, he]
        | some chans =>
            by_cases he : cid = x
            · subst he
              simp [h2, dictLookup_insert]
            · simp [h2, dictLookup_insert, he]

theorem cch_unsub_isSome (s : WSState) (cid ch x : String) :
    (dictLookup (unsubscribe_connection s cid ch).connection_channels x).isSome
      ↔ (dictLookup s.connection_channels x).isSome := by
  unfold unsubscribe_connection
  cases h1 : dictLookup s.channel_subscriptions ch with
  | none =>
      cases h2 : dictLookup s.connection_channels cid with
      | none => simp [h2]
      | some chans =>
          by_cases he : cid = x
          · subst he
            simp [h2, dictLookup_insert]
          · simp [h2, dictLookup_insert, he]
  | some l =>
      simp only [h1]
      by_cases hemp : setDiscard l cid = []
      · rw [if_pos hemp]
        cases h2 : dictLookup s.connection_channels cid with
        | none => simp [h2]
        | some chans =>
            by_cases he : cid = x
            · subst he
              simp [h2, dictLookup_insert]
            · simp [h2, dictLookup_insert, he]
      · rw [if_neg hemp]
        cases h2 : dictLookup s.connection_channels cid with
        | none => simp [h2]
        | some chans =>
            by_cases he : cid = x
            · subst he
              simp [h2, dictLookup_insert]
            · simp [h2, dictLookup_insert, he]

theorem nodup_subs_unsub (s : WSState) (cid ch : String)
    (hnd : (dKeys s.channel_subscriptions).Nodup) :
    (dKeys (unsubscribe_connection s cid ch).channel_subscriptions).Nodup := by
  unfold unsubscribe_connection
  cases h1 : dictLookup s.channel_subscriptions ch with
  | none =>
      cases h2 : dictLookup s.connection_channels cid <;> simp [h2, hnd]
  | some l =>
      have herase : (dKeys (dictErase s.channel_subscriptions ch)).Nodup := by
        have hsub : List.Sublist (dKeys (dictErase s.channel_subscriptions ch))
            (dKeys s.channel_subscriptions) :=
          (List.filter_sublist _).map Prod.fst
        exact hsub.nodup hnd
      by_cases hemp : setDiscard l cid = [] <;>
        cases h2 : dictLookup s.connection_channels cid <;>
        simp [hemp, h2, herase, nodup_dKeys_dictInsert hnd]

/-! ### The inductive invariant -/

theorem cch_subscribe_isSome (s : WSState) (cid ch x : String)
    (chans : List String)
    (hc : dictLookup s.connection_channels cid = some chans) :
    (dictLookup (subscribe_connection s cid ch).1.connection_channels x).isSome
      ↔ (dictLookup s.connection_channels x).isSome := by
  rw [subscribe_state_known s cid ch chans hc]
  by_cases he : cid = x
  · subst he
    simp [dictLookup_insert, hc]
  · simp [dictLookup_insert, he]

/-- The invariant carried through every well-formed operation: the registry
and the connection-channel index have the same keys, the channel index has
duplicate-free keys, and the two subscription indices mirror each other. -/
structure ManagerInv (s : WSState) : Prop where
  keys_eq : ∀ cid, (dictLookup s.active_connections cid).isSome ↔
      (dictLookup s.connection_channels cid).isSome
  nodup : (dKeys s.channel_subscriptions).Nodup
  consistent : Consistent s

theorem ManagerInv_init : ManagerInv initState := by
  refine ⟨?_, ?_, ?_⟩
  · intro cid
    simp [initState, dictLookup]
  · simp [initState, dKeys]
  · intro cid ch
    simp [subsOf, chansOf, initState, dictLookup]

theorem ManagerInv_remove (s : WSState) (cid : String) (h : ManagerInv s) :
    ManagerInv (remove_connection s cid) := by
  refine ⟨?_, nodup_subs_remove s cid h.nodup, ?_⟩
  · intro x
    rw [active_remove, cch_remove]
    by_cases he : x = cid
    · simp [he]
    · simp [he, h.keys_eq x]
  · intro x ch
    rw [subsOf_remove s cid ch h.nodup, chansOf_remove]
    by_cases he : x = cid
    · subst he
      simp [mem_setDiscard]
    · simp [he, mem_setDiscard, h.consistent x ch]

theorem ManagerInv_subscribe (s : WSState) (cid ch : String) (h : ManagerInv s)
    (hreg : (dictLookup s.connection_channels cid).isSome) :
    ManagerInv (subscribe_connection s cid ch).1 := by
  obtain ⟨chans, hchans⟩ := Option.isSome_iff_exists.mp hreg
  have hchansOf : chansOf s cid = chans := by simp [chansOf, hchans]
  refine ⟨?_, nodup_subs_subscribe s cid ch h.nodup, ?_⟩
  · intro x
    rw [show (subscribe_connection s cid ch).1.active_connections
      = s.active_connections from subscribe_active s cid ch]
    rw [h.keys_eq x]
    exact (cch_subscribe_isSome s cid ch x chans hchans).symm
  · intro x ch'
    rw [subsOf_subscribe, chansOf_subscribe_known s cid ch x chans hchans]
    by_cases he1 : ch = ch' <;> by_cases he2 : cid = x
    · subst he1
      subst he2
      simp [mem_setAdd]
    · subst he1
      have hx : ¬ x = cid := fun e => he2 e.symm
      simp [mem_setAdd, he2, hx, h.consistent x ch]
    · subst he2
      have hc : ¬ ch' = ch := fun e => he1 e.symm
      simp [mem_setAdd, he1, hc, hchansOf ▸ h.consistent cid ch']
    · simp [he1, he2, h.consistent x ch']

theorem ManagerInv_unsub (s : WSState) (cid ch : String) (h : ManagerInv s) :
    ManagerInv (unsubscribe_connection s cid ch) := by
  refine ⟨?_, nodup_subs_unsub s cid ch h.nodup, ?_⟩
  · intro x
    rw [show (unsubscribe_connection s cid ch).active_connections
      = s.active_connections from unsub_active s cid ch]
    rw [h.keys_eq x]
    exact (cch_unsub_isSome s cid ch x).symm
  · intro x ch'
    rw [subsOf_unsub, chansOf_unsub]
    by_cases he1 : ch = ch' <;> by_cases he2 : cid = x
    · subst he1
      subst he2
      simp [mem_setDiscard]
    · subst he1
      have hx : ¬ x = cid := fun e => he2 e.symm
      simp [mem_setDiscard, he2, hx, h.consistent x ch]
    · subst he2
      have hc : ¬ ch' = ch := fun e => he1 e.symm
      simp [mem_setDiscard, he1, hc, h.consistent cid ch']
    · simp [he1, he2, h.consistent x ch']

theorem ManagerInv_connect_base (s : WSState) (ws : WS) (cid now : String)
    (h : ManagerInv s)
    (hcch : dictLookup s.connection_channels cid = none) :
    ManagerInv
      { s with
        active_connections := dictInsert s.active_connections cid ws,
        connection_metadata :=
          dictInsert s.connection_metadata cid ⟨now, none, ws.clientHost⟩,
        connection_channels := dictInsert s.connection_channels cid [] } := by
  refine ⟨?_, h.nodup, ?_⟩
  · intro x
    simp only [dictLookup_insert]
    by_cases he : cid = x
    · simp [he]
    · simp [he, h.keys_eq x]
  · intro x ch
    have hsub : cid ∉ subsOf s ch := by
      intro hmem
      have := (h.consistent cid ch).mp hmem
      simp [chansOf, hcch] at this
    simp only [subsOf, chansOf, dictLookup_insert]
    by_cases he : cid = x
    · subst he
      simp only [if_pos rfl]
      simp [show (dictLookup s.channel_subscriptions ch).getD [] = subsOf s ch
        from rfl, hsub]
    · simp only [if_neg he]
      exact h.consistent x ch

theorem connect_state_cases (s : WSState) (ws : WS) (cid : String)
    (initial : Option String) (now : String) :
    (connect s ws cid initial now).1 =
      match initial with
      | none =>
          { s with
            active_connections := dictInsert s.active_connections cid ws,
            connection_metadata :=
              dictInsert s.connection_metadata cid ⟨now, none, ws.clientHost⟩,
            connection_channels := dictInsert s.connection_channels cid [] }
      | some ch =>
          (subscribe_connection
            { s with
              active_connections := dictInsert s.active_connections cid ws,
              connection_metadata :=
                dictInsert s.connection_metadata cid ⟨now, none, ws.clientHost⟩,
              connection_channels := dictInsert s.connection_channels cid [] }
            cid ch).1 := by
  cases initial <;> simp [connect]

theorem ManagerInv_connect (s : WSState) (ws : WS) (cid : String)
    (initial : Option String) (now : String) (h : ManagerInv s)
    (hfresh : dictLookup s.active_connections cid = none) :
    ManagerInv (connect s ws cid initial now).1 := by
  have hcch : dictLookup s.connection_channels cid = none := by
    cases hc : dictLookup s.connection_channels cid with
    | none => rfl
    | some v =>
        have := (h.keys_eq cid).mpr (by simp [hc])
        simp [hfresh] at this
  have hbase := ManagerInv_connect_base s ws cid now h hcch
  rw [connect_state_cases]
  cases initial with
  | none => exact hbase
  | some ch =>
      refine ManagerInv_subscribe _ cid ch hbase ?_
      simp [dictLookup_insert]

theorem findId_mem_keys (active : List (String × WS)) (ws : WS) (cid : String)
    (h : findId active ws = some cid) : cid ∈ dKeys active := by
  induction active with
  | nil => simp [findId] at h
  | cons p rest ih =>
      by_cases hp : p.2 = ws
      · simp [findId, hp] at h
        simp [dKeys, ← h]
      · simp [findId, hp] at h
        have := ih h
        simp [dKeys] at this ⊢
        tauto

theorem ManagerInv_foldRemove (L : List String) (s : WSState)
    (h : ManagerInv s) : ManagerInv (L.foldl remove_connection s) := by
  induction L generalizing s with
  | nil => simpa using h
  | cons a rest ih =>
      rw [List.foldl_cons]
      exact ih _ (ManagerInv_remove s a h)

theorem ManagerInv_subscribeList (chans : List String) (s : WSState)
    (cid : String) (h : ManagerInv s)
    (hreg : (dictLookup s.connection_channels cid).isSome) :
    ManagerInv (subscribeList s cid chans).1 := by
  induction chans generalizing s with
  | nil => simpa [subscribeList] using h
  | cons ch rest ih =>
      obtain ⟨cs, hcs⟩ := Option.isSome_iff_exists.mp hreg
      have heq := subscribe_state_known s cid ch cs hcs
      have hstep : subscribeList s cid (ch :: rest) =
          subscribeList (subscribe_connection s cid ch).1 cid rest := by
        simp only [subscribeList]
        rw [heq]
        simp
      rw [hstep]
      refine ih _ (ManagerInv_subscribe s cid ch h hreg) ?_
      rw [heq]
      simp [dictLookup_insert]

theorem broadcast_state_none (s : WSState) (channel : String) (m : Msg)
    (ex : Option WS) (now : String)
    (h : dictLookup s.channel_subscriptions channel = none) :
    broadcast_to_channel s channel m ex now = ⟨s, [], [], m, none, false⟩ := by
  simp [broadcast_to_channel, h]

theorem broadcast_state_some (s : WSState) (channel : String) (m : Msg)
    (ex : Option WS) (now : String) (l : List String)
    (h : dictLookup s.channel_subscriptions channel = some l) :
    broadcast_to_channel s channel m ex now =
      ⟨(fanOut s.active_connections (resolveExclude s ex) l).2.foldl
          remove_connection s,
        (fanOut s.active_connections (resolveExclude s ex) l).1,
        (fanOut s.active_connections (resolveExclude s ex) l).2,
        dictInsert (dictInsert m "channel" channel) "timestamp" now,
        none,
        (dictLookup ((fanOut s.active_connections (resolveExclude s ex) l).2.foldl
            remove_connection s).channel_subscriptions channel).isNone⟩ := by
  simp [broadcast_to_channel, h]

theorem send_state_none (s : WSState) (cid : String) (m : Msg) (now : String)
    (h : dictLookup s.active_connections cid = none) :
    send_to_connection s cid m now = ⟨s, false, m⟩ := by
  simp [send_to_connection, h]

theorem send_state_ok (s : WSState) (cid : String) (m : Msg) (now : String)
    (w : WS) (h : dictLookup s.active_connections cid = some w)
    (hw : w.fails = false) :
    send_to_connection s cid m now = ⟨s, true, dictInsert m "timestamp" now⟩ := by
  simp [send_to_connection, h, hw]

theorem send_state_fail (s : WSState) (cid : String) (m : Msg) (now : String)
    (w : WS) (h : dictLookup s.active_connections cid = some w)
    (hw : w.fails = true) :
    send_to_connection s cid m now =
      ⟨remove_connection s cid, false, dictInsert m "timestamp" now⟩ := by
  simp [send_to_connection, h, hw]

theorem ManagerInv_applyOp (s : WSState) (op : Op) (h : ManagerInv s)
    (hwf : WfOp s op) : ManagerInv (applyOp s op) := by
  cases op with
  | connectOp cid ws initial now => exact ManagerInv_connect s ws cid initial now h hwf
  | disconnectOp ws =>
      cases hf : findId s.active_connections ws with
      | none =>
          have : applyOp s (.disconnectOp ws) = s := by
            simp [applyOp, disconnect, hf]
          rw [this]
          exact h
      | some cid =>
          have : applyOp s (.disconnectOp ws) = remove_connection s cid := by
            simp [applyOp, disconnect, hf]
          rw [this]
          exact ManagerInv_remove s cid h
  | disconnectByIdOp cid =>
      have : applyOp s (.disconnectByIdOp cid) = remove_connection s cid := by
        simp [applyOp, disconnect_by_id]
      rw [this]
      exact ManagerInv_remove s cid h
  | subscribeConnOp cid ch =>
      have hreg : (dictLookup s.connection_channels cid).isSome :=
        (h.keys_eq cid).mp hwf
      exact ManagerInv_subscribe s cid ch h hreg
  | unsubscribeConnOp cid ch => exact ManagerInv_unsub s cid ch h
  | subscribeWsOp ws channels =>
      cases hf : findId s.active_connections ws with
      | none =>
          have : applyOp s (.subscribeWsOp ws channels) = s := by
            simp [applyOp, subscribe, hf]
          rw [this]
          exact h
      | some cid =>
          have heq : applyOp s (.subscribeWsOp ws channels) =
              (subscribeList s cid channels).1 := by
            simp [applyOp, subscribe, hf]
          rw [heq]
          have hreg : (dictLookup s.connection_channels cid).isSome :=
            (h.keys_eq cid).mp
              (dictLookup_isSome_of_mem_keys (findId_mem_keys _ _ _ hf))
          exact ManagerInv_subscribeList channels s cid h hreg
  | broadcastOp ch m ex now =>
      cases hb : dictLookup s.channel_subscriptions ch with
      | none =>
          have : applyOp s (.broadcastOp ch m ex now) = s := by
            simp [applyOp, broadcast_state_none s ch m ex now hb]
          rw [this]
          exact h
      | some l =>
          have : applyOp s (.broadcastOp ch m ex now) =
              (fanOut s.active_connections (resolveExclude s ex) l).2.foldl
                remove_connection s := by
            simp [applyOp, broadcast_state_some s ch m ex now l hb]
          rw [this]
          exact ManagerInv_foldRemove _ s h
  | sendOp cid m now =>
      cases ha : dictLookup s.active_connections cid with
      | none =>
          have : applyOp s (.sendOp cid m now) = s := by
            simp [applyOp, send_state_none s cid m now ha]
          rw [this]
          exact h
      | some w =>
          cases hw : w.fails with
          | false =>
              have : applyOp s (.sendOp cid m now) = s := by
                simp [applyOp, send_state_ok s cid m now w ha hw]
              rw [this]
              exact h
          | true =>
              have : applyOp s (.sendOp cid m now) = remove_connection s cid := by
                simp [applyOp, send_state_fail s cid m now w ha hw]
              rw [this]
              exact ManagerInv_remove s cid h

theorem reachableWf_inv (s : WSState) (h : ReachableWf s) : ManagerInv s := by
  induction h with
  | init => exact ManagerInv_init
  | step s op hs hwf ih => exact ManagerInv_applyOp s op ih hwf

/-! ### Fan-out loop characterization and post-loop eviction -/

theorem fanOut_mem_att (active : List (String × WS)) (e : Option String)
    (l : List String) (c : String) :
    c ∈ (fanOut active e l).1 ↔
      c ∈ l ∧ e ≠ some c ∧ (dictLookup active c).isSome := by
  induction l with
  | nil => simp [fanOut]
  | cons cid rest ih =>
      by_cases he : e = some cid
      · rw [show fanOut active e (cid :: rest) = fanOut active e rest from by
          simp [fanOut, he]]
        rw [ih]
        by_cases hc : c = cid
        · subst hc
          simp [he]
        · simp [hc]
      · by_cases hc : c = cid
        · subst hc
          cases hl : dictLookup active c with
          | none =>
              rw [show fanOut active e (c :: rest) = fanOut active e rest from by
                simp [fanOut, he, hl]]
              rw [ih]
              simp [hl]
          | some w =>
              rw [show (fanOut active e (c :: rest)).1
                  = c :: (fanOut active e rest).1 from by simp [fanOut, he, hl]]
              simp [he, hl]
        · cases hl : dictLookup active cid with
          | none =>
              rw [show fanOut active e (cid :: rest) = fanOut active e rest from by
                simp [fanOut, he, hl]]
              rw [ih]
              simp [hc]
          | some w =>
              rw [show (fanOut active e (cid :: rest)).1
                  = cid :: (fanOut active e rest).1 from by simp [fanOut, he, hl]]
              rw [List.mem_cons, ih]
              simp [hc]

theorem fanOut_mem_failed (active : List (String × WS)) (e : Option String)
    (l : List String) (c : String) :
    c ∈ (fanOut active e l).2 ↔
      c ∈ l ∧ e ≠ some c ∧
        ∃ w, dictLookup active c = some w ∧ w.fails = true := by
  induction l with
  | nil => simp [fanOut]
  | cons cid rest ih =>
      by_cases he : e = some cid
      · rw [show fanOut active e (cid :: rest) = fanOut active e rest from by
          simp [fanOut, he]]
        rw [ih]
        by_cases hc : c = cid
        · subst hc
          simp [he]
        · simp [hc]
      · by_cases hc : c = cid
        · subst hc
          cases hl : dictLookup active c with
          | none =>
              rw [show fanOut active e (c :: rest) = fanOut active e rest from by
                simp [fanOut, he, hl]]
              rw [ih]
              simp [hl]
          | some w =>
              cases hw : w.fails with
              | false =>
                  rw [show (fanOut active e (c :: rest)).2
                      = (fanOut active e rest).2 from by simp [fanOut, he, hl, hw]]
                  rw [ih]
                  simp [hl, hw]
              | true =>
                  rw [show (fanOut active e (c :: rest)).2
                      = c :: (fanOut active e rest).2 from by
                    simp [fanOut, he, hl, hw]]
                  simp [he, hl, hw]
        · cases hl : dictLookup active cid with
          | none =>
              rw [show fanOut active e (cid :: rest) = fanOut active e rest from by
                simp [fanOut, he, hl]]
              rw [ih]
              simp [hc]
          | some w =>
              cases hw : w.fails with
              | false =>
                  rw [show (fanOut active e (cid :: rest)).2
                      = (fanOut active e rest).2 from by simp [fanOut, he, hl, hw]]
                  rw [ih]
                  simp [hc]
              | true =>
                  rw [show (fanOut active e (cid :: rest)).2
                      = cid :: (fanOut active e rest).2 from by
                    simp [fanOut, he, hl, hw]]
                  rw [List.mem_cons, ih]
                  simp [hc]

theorem foldRemove_active (L : List String) (s : WSState) (c : String) :
    dictLookup (L.foldl remove_connection s).active_connections c =
      if c ∈ L then none else dictLookup s.active_connections c := by
  induction L generalizing s with
  | nil => simp
  | cons a rest ih =>
      rw [List.foldl_cons, ih]
      by_cases hc : c = a
      · subst hc
        by_cases hr : c ∈ rest
        · simp [hr]
        · simp [hr, active_remove]
      · by_cases hr : c ∈ rest
        · simp [hr, hc]
        · simp [hr, hc, active_remove]

theorem nodup_foldRemove (L : List String) (s : WSState)
    (hnd : (dKeys s.channel_subscriptions).Nodup) :
    (dKeys (L.foldl remove_connection s).channel_subscriptions).Nodup := by
  induction L generalizing s with
  | nil => simpa using hnd
  | cons a rest ih =>
      rw [List.foldl_cons]
      exact ih _ (nodup_subs_remove s a hnd)

theorem mem_subsOf_foldRemove (L : List String) (s : WSState) (ch x : String)
    (hnd : (dKeys s.channel_subscriptions).Nodup) :
    x ∈ subsOf (L.foldl remove_connection s) ch ↔
      x ∈ subsOf s ch ∧ x ∉ L := by
  induction L generalizing s with
  | nil => simp
  | cons a rest ih =>
      rw [List.foldl_cons, ih _ (nodup_subs_remove s a hnd),
        subsOf_remove s a ch hnd, mem_setDiscard]
      by_cases hx : x = a
      · subst hx
        simp
      · simp [hx]

/-! ### Eager garbage collection of empty channels -/

theorem subs_subscribe_eq (s : WSState) (cid ch : String) :
    (subscribe_connection s cid ch).1.channel_subscriptions =
      dictInsert s.channel_subscriptions ch (setAdd (subsOf s ch) cid) := by
  cases h : dictLookup s.connection_channels cid with
  | none => rw [subscribe_state_unknown s cid ch h]
  | some chans => rw [subscribe_state_known s cid ch chans h]

theorem subs_unsub_eq (s : WSState) (cid ch : String) :
    (unsubscribe_connection s cid ch).channel_subscriptions =
      match dictLookup s.channel_subscriptions ch with
      | none => s.channel_subscriptions
      | some l =>
          if setDiscard l cid = [] then dictErase s.channel_subscriptions ch
          else dictInsert s.channel_subscriptions ch (setDiscard l cid) := by
  unfold unsubscribe_connection
  cases h1 : dictLookup s.channel_subscriptions ch with
  | none =>
      cases h2 : dictLookup s.connection_channels cid <;> simp [h2]
  | some l =>
      simp only [h1]
      by_cases hemp : setDiscard l cid = []
      · rw [if_pos hemp, if_pos hemp]
        cases h2' : dictLookup s.connection_channels cid <;> simp [h2']
      · rw [if_neg hemp, if_neg hemp]
        cases h2' : dictLookup s.connection_channels cid <;> simp [h2']

theorem NE_remove (s : WSState) (cid : String) :
    NonemptyChannels (remove_connection s cid) := by
  intro p hp
  unfold remove_connection at hp
  simp only [List.mem_filter] at hp
  simpa using hp.2

theorem NE_dictInsert_of (s : WSState) (d : List (String × List String))
    (h : NonemptyChannels s) (hd : d = s.channel_subscriptions)
    (ch : String) (v : List String) (hv : v ≠ []) (p : String × List String)
    (hp : p ∈ dictInsert d ch v) : p.2 ≠ [] := by
  rcases mem_dictInsert hp with h' | h'
  · rw [h']
    exact hv
  · exact h p (hd ▸ h')

theorem NE_subscribe (s : WSState) (cid ch : String)
    (h : NonemptyChannels s) :
    NonemptyChannels (subscribe_connection s cid ch).1 := by
  intro p hp
  rw [subs_subscribe_eq] at hp
  exact NE_dictInsert_of s _ h rfl ch _ (setAdd_ne_nil _ _) p hp

theorem NE_unsub (s : WSState) (cid ch : String)
    (h : NonemptyChannels s) :
    NonemptyChannels (unsubscribe_connection s cid ch) := by
  intro p hp
  rw [subs_unsub_eq] at hp
  revert hp
  cases h1 : dictLookup s.channel_subscriptions ch with
  | none =>
      simp only [h1]
      intro hp
      exact h p hp
  | some l =>
      simp only [h1]
      by_cases hemp : setDiscard l cid = []
      · rw [if_pos hemp]
        intro hp
        exact h p (List.mem_of_mem_filter hp)
      · rw [if_neg hemp]
        intro hp
        exact NE_dictInsert_of s _ h rfl ch _ hemp p hp

theorem NE_connect (s : WSState) (ws : WS) (cid : String)
    (initial : Option String) (now : String) (h : NonemptyChannels s) :
    NonemptyChannels (connect s ws cid initial now).1 := by
  rw [connect_state_cases]
  cases initial with
  | none => exact h
  | some ch =>
      apply NE_subscribe
      exact h

theorem NE_foldRemove (L : List String) (s : WSState)
    (h : NonemptyChannels s) :
    NonemptyChannels (L.foldl remove_connection s) := by
  induction L generalizing s with
  | nil => simpa using h
  | cons a rest ih =>
      rw [List.foldl_cons]
      exact ih _ (NE_remove s a)

theorem NE_subscribeList (chans : List String) (s : WSState) (cid : String)
    (h : NonemptyChannels s) :
    NonemptyChannels (subscribeList s cid chans).1 := by
  induction chans generalizing s with
  | nil => simpa [subscribeList] using h
  | cons ch rest ih =>
      simp only [subscribeList]
      by_cases hr : (subscribe_connection s cid ch).2
      · simp only [hr, if_pos]
        exact NE_subscribe s cid ch h
      · simp only [hr]
        simp only [Bool.false_eq_true, if_false]
        exact ih _ (NE_subscribe s cid ch h)

theorem NE_applyOp (s : WSState) (op : Op) (h : NonemptyChannels s) :
    NonemptyChannels (applyOp s op) := by
  cases op with
  | connectOp cid ws initial now => exact NE_connect s ws cid initial now h
  | disconnectOp ws =>
      simp only [applyOp, disconnect]
      cases hf : findId s.active_connections ws with
      | none => simpa using h
      | some cid =>
          simpa using NE_remove s cid
  | disconnectByIdOp cid => exact NE_remove s cid
  | subscribeConnOp cid ch => exact NE_subscribe s cid ch h
  | unsubscribeConnOp cid ch => exact NE_unsub s cid ch h
  | subscribeWsOp ws channels =>
      simp only [applyOp, subscribe]
      cases hf : findId s.active_connections ws with
      | none => simpa using h
      | some cid =>
          simpa using NE_subscribeList channels s cid h
  | broadcastOp ch m ex now =>
      cases hb : dictLookup s.channel_subscriptions ch with
      | none =>
          have he : applyOp s (.broadcastOp ch m ex now) = s := by
            simp [applyOp, broadcast_state_none s ch m ex now hb]
          rw [he]
          exact h
      | some l =>
          have he : applyOp s (.broadcastOp ch m ex now) =
              (fanOut s.active_connections (resolveExclude s ex) l).2.foldl
                remove_connection s := by
            simp [applyOp, broadcast_state_some s ch m ex now l hb]
          rw [he]
          exact NE_foldRemove _ s h
  | sendOp cid m now =>
      cases ha : dictLookup s.active_connections cid with
      | none =>
          have he : applyOp s (.sendOp cid m now) = s := by
            simp [applyOp, send_state_none s cid m now ha]
          rw [he]
          exact h
      | some w =>
          cases hw : w.fails with
          | false =>
              have he : applyOp s (.sendOp cid m now) = s := by
                simp [applyOp, send_state_ok s cid m now w ha hw]
              rw [he]
              exact h
          | true =>
              have he : applyOp s (.sendOp cid m now) = remove_connection s cid := by
                simp [applyOp, send_state_fail s cid m now w ha hw]
              rw [he]
              exact NE_remove s cid

theorem reachable_NE (s : WSState) (h : Reachable s) : NonemptyChannels s := by
  induction h with
  | init => intro p hp; simp [initState] at hp
  | step s op hs ih => exact NE_applyOp s op ih

/-! ### Claim theorems -/

/-- C1 counterexample: the claim demands mutual consistency of the two
subscription indices in every reachable state, "including identities unknown
to the registry".  After `connect` of `A` followed by
`subscribe_connection("ghost", "news")` — an identity the registry does not
know — the state has `ghost` in `channel_subscriptions["news"]` but no entry
for `ghost` in `connection_channels`: the indices disagree, refuting the
claim as stated. -/
theorem c1_consistency_counterexample :
    ¬ Consistent (run initState
      [Op.connectOp "A" ⟨1, false, none⟩ none "t0",
       Op.subscribeConnOp "ghost" "news"]) := by
  intro h
  have h1 := (h "ghost" "news").mp (by decide)
  exact absurd h1 (by decide)

/-- C1 (amended): for every sequence of operations in which `connect` mints
fresh identities and `subscribe_connection` is only invoked with identities
present in the registry — which is how every call site in the repository
invokes it — the two subscription indices are mutually consistent in every
reachable state: an identity is in a channel's subscriber set iff the
channel is in that identity's channel set. -/
theorem c1_subscription_indices_consistent (s : WSState)
    (h : ReachableWf s) : Consistent s :=
  (reachableWf_inv s h).consistent

/-- Witness for C1: the consistency theorem applied to the concrete state
reached by `connect` with initial channel `news`. -/
theorem c1_subscription_indices_consistent_witness :
    Consistent (applyOp initState
      (Op.connectOp "A" ⟨1, false, none⟩ (some "news") "t0")) :=
  c1_subscription_indices_consistent _
    (ReachableWf.step initState _ ReachableWf.init (by decide))

/-- C2: the claim says a subscribe on an identity unknown to the registry is
a silent no-op (no exception, no state change).  The code violates this: on
a fresh manager, `subscribe_connection("ghost", "news")` first inserts
`ghost` into `channel_subscriptions["news"]` and then raises `KeyError` at
`self.connection_channels["ghost"]` (raised flag `true` below), leaving the
mutation behind.  The spec (&sect;7, &sect;4.2) clearly intends "never a hard
failure", so this is a code bug. -/
theorem c2_subscribe_unknown_raises :
    subscribe_connection initState "ghost" "news" =
      (⟨[], [("news", ["ghost"])], [], []⟩, true) := by decide

/-- C3 counterexample: broadcasting to a channel that has a subscriber does
attempt delivery (`attempted = ["A"]`) but the Python function's return
value is `None` — no delivery report recording attempted and failed
identities is returned, refuting the claim as stated. -/
theorem c3_broadcast_report_counterexample :
    (broadcast_to_channel sOneSub "c" [] none "t1").retval = none ∧
    (broadcast_to_channel sOneSub "c" [] none "t1").attempted = ["A"] := by
  decide

/-- C3 (amended): `broadcast_to_channel` never returns a delivery report
(its return value is always `None`, though it tracks failed identities
internally); when the channel has no subscribers it returns immediately
with no state change, no delivery attempts, and the caller's payload left
untouched. -/
theorem c3_broadcast_no_report_empty_noop :
    (∀ (s : WSState) (ch : String) (m : Msg) (ex : Option WS) (now : String),
      (broadcast_to_channel s ch m ex now).retval = none) ∧
    (∀ (s : WSState) (ch : String) (m : Msg) (ex : Option WS) (now : String),
      dictLookup s.channel_subscriptions ch = none →
      broadcast_to_channel s ch m ex now = ⟨s, [], [], m, none, false⟩) := by
  constructor
  · intro s ch m ex now
    cases hb : dictLookup s.channel_subscriptions ch with
    | none => rw [broadcast_state_none s ch m ex now hb]
    | some l => rw [broadcast_state_some s ch m ex now l hb]
  · intro s ch m ex now h
    exact broadcast_state_none s ch m ex now h

/-- Witness for C3 (amended) at the empty manager and channel `c`. -/
theorem c3_broadcast_no_report_empty_noop_witness :
    (broadcast_to_channel initState "c" [] none "t1").retval = none ∧
    broadcast_to_channel initState "c" [] none "t1" =
      ⟨initState, [], [], [], none, false⟩ :=
  ⟨c3_broadcast_no_report_empty_noop.1 initState "c" [] none "t1",
   c3_broadcast_no_report_empty_noop.2 initState "c" [] none "t1" rfl⟩

/-- C4 counterexample: the claim says a connection is never evicted for a
malformed inbound message.  On the `/ws` endpoint, with connection `A`
registered and subscribed to `c`, one malformed frame makes the handler's
`except Exception` branch call `disconnect`: afterwards `A` is gone from
the registry and from the channel index. -/
theorem c4_malformed_evicts_counterexample :
    dictLookup sOneSub.active_connections "A" = some ⟨1, false, none⟩ ∧
    "A" ∈ subsOf sOneSub "c" ∧
    dictLookup (websocket_endpoint_step sOneSub ⟨1, false, none⟩
        Inbound.malformed).1.active_connections "A" = none ∧
    subsOf (websocket_endpoint_step sOneSub ⟨1, false, none⟩
        Inbound.malformed).1 "c" = [] := by
  decide

/-- C4 (amended): inbound data on which JSON parsing raises causes the
generic `/ws` endpoint to log and evict the connection (cascading cleanup)
and its receive loop to stop; the workflow endpoint propagates the parse
error, stopping its loop with no manager-state change (the connection stays
registered).  Only a well-formed JSON object of unrecognized type is
dropped with the connection and its subscriptions retained. -/
theorem c4_malformed_handling (s : WSState) (ws : WS) (wid now : String) :
    websocket_endpoint_step s ws Inbound.malformed =
      (disconnect s ws, StepOutcome.stopped) ∧
    websocket_endpoint_step s ws Inbound.otherObj = (s, StepOutcome.next) ∧
    workflow_websocket_step s ws wid none now = (s, StepOutcome.stopped) :=
  ⟨rfl, rfl, rfl⟩

/-- C5: during a broadcast over a channel with subscriber snapshot `subs`,
(1) every non-excluded subscriber with a registered handle receives a
delivery attempt, regardless of other subscribers' failures; (2) every
non-excluded registered subscriber whose transport fails is recorded as
failed; (3) the post-state is exactly the pre-state with the failed
identities evicted by `_remove_connection` after the fan-out loop — the
loop itself reads only the pre-state, so cleanup is never interleaved with
delivery; (4) after the broadcast every failed identity is absent from the
registry and from every channel's subscriber set. -/
theorem c5_broadcast_failure_isolation (s : WSState) (channel : String)
    (m : Msg) (ex : Option WS) (now : String) (subs : List String)
    (hsubs : dictLookup s.channel_subscriptions channel = some subs)
    (hnd : (dKeys s.channel_subscriptions).Nodup) :
    (∀ g, g ∈ subs → resolveExclude s ex ≠ some g →
        (dictLookup s.active_connections g).isSome →
        g ∈ (broadcast_to_channel s channel m ex now).attempted) ∧
    (∀ f w, f ∈ subs → resolveExclude s ex ≠ some f →
        dictLookup s.active_connections f = some w → w.fails = true →
        f ∈ (broadcast_to_channel s channel m ex now).failed) ∧
    (broadcast_to_channel s channel m ex now).state =
      (broadcast_to_channel s channel m ex now).failed.foldl
        remove_connection s ∧
    (∀ f, f ∈ (broadcast_to_channel s channel m ex now).failed →
        dictLookup (broadcast_to_channel s channel m ex
          now).state.active_connections f = none ∧
        ∀ ch', f ∉ subsOf (broadcast_to_channel s channel m ex now).state ch') := by
  rw [broadcast_state_some s channel m ex now subs hsubs]
  dsimp only
  refine ⟨?_, ?_, rfl, ?_⟩
  · intro g hg hex hsome
    rw [fanOut_mem_att]
    exact ⟨hg, hex, hsome⟩
  · intro f w hf hex hw hfails
    rw [fanOut_mem_failed]
    exact ⟨hf, hex, w, hw, hfails⟩
  · intro f hf
    constructor
    · rw [foldRemove_active]
      simp [hf]
    · intro ch'
      rw [mem_subsOf_foldRemove _ _ _ _ hnd]
      simp [hf]

/-- Witness for C5 on the two-subscriber state: `A` (working transport) is
attempted, `B` (failing transport) is recorded failed and evicted. -/
theorem c5_broadcast_failure_isolation_witness :
    "A" ∈ (broadcast_to_channel sTwoSub "c" [] none "t1").attempted ∧
    "B" ∈ (broadcast_to_channel sTwoSub "c" [] none "t1").failed ∧
    dictLookup (broadcast_to_channel sTwoSub "c" []
      none "t1").state.active_connections "B" = none := by
  have h := c5_broadcast_failure_isolation sTwoSub "c" [] none "t1"
    ["A", "B"] rfl (by decide)
  have hBfail := h.2.1 "B" ⟨2, true, none⟩ (by decide) (by decide) rfl rfl
  exact ⟨h.1 "A" (by decide) (by decide) (by decide), hBfail,
    (h.2.2.2 "B" hBfail).1⟩

/-- C6: `send_to_connection` returns `True` when the identity is registered
and the write succeeds (state untouched); returns `False` and evicts the
identity — removing it from the registry and from every channel's
subscriber set — when the registered transport's write fails; and returns
`False` with no state change (payload untouched) for an unknown identity. -/
theorem c6_send_semantics (s : WSState) (cid : String) (m : Msg)
    (now : String) :
    (dictLookup s.active_connections cid = none →
      send_to_connection s cid m now = ⟨s, false, m⟩) ∧
    (∀ w, dictLookup s.active_connections cid = some w → w.fails = false →
      send_to_connection s cid m now =
        ⟨s, true, dictInsert m "timestamp" now⟩) ∧
    (∀ w, dictLookup s.active_connections cid = some w → w.fails = true →
      (send_to_connection s cid m now).success = false ∧
      (send_to_connection s cid m now).state = remove_connection s cid ∧
      dictLookup (send_to_connection s cid m
        now).state.active_connections cid = none ∧
      ((dKeys s.channel_subscriptions).Nodup →
        ∀ ch, cid ∉ subsOf (send_to_connection s cid m now).state ch)) := by
  refine ⟨fun h => send_state_none s cid m now h,
          fun w h hw => send_state_ok s cid m now w h hw, ?_⟩
  intro w h hw
  rw [send_state_fail s cid m now w h hw]
  refine ⟨rfl, rfl, ?_, ?_⟩
  · dsimp only
    rw [active_remove]
    simp
  · intro hnd ch
    dsimp only
    rw [subsOf_remove s cid ch hnd]
    exact setDiscard_self_not_mem _ _

/-- Witness for C6: unknown identity `Z` returns false with no change,
`A` succeeds, failing `B` returns false. -/
theorem c6_send_semantics_witness :
    send_to_connection sTwoSub "Z" [] "t1" = ⟨sTwoSub, false, []⟩ ∧
    send_to_connection sTwoSub "A" [] "t1" =
      ⟨sTwoSub, true, [("timestamp", "t1")]⟩ ∧
    (send_to_connection sTwoSub "B" [] "t1").success = false := by
  have h := c6_send_semantics sTwoSub "Z" [] "t1"
  have hA := (c6_send_semantics sTwoSub "A" [] "t1").2.1
    ⟨1, false, none⟩ rfl rfl
  have hB := ((c6_send_semantics sTwoSub "B" [] "t1").2.2
    ⟨2, true, none⟩ rfl rfl).1
  exact ⟨h.1 rfl, hA.trans (by decide), hB⟩

/-- C7: in every reachable state (no restriction on the operation sequence)
every entry of the channel index has a nonempty subscriber set; moreover
unsubscribing the sole remaining subscriber of a channel deletes the
channel's entry, and evicting (`_remove_connection`) a connection that was
the last subscriber of a channel deletes that channel's entry. -/
theorem c7_empty_channels_collected :
    (∀ s, Reachable s → ∀ ch l,
        dictLookup s.channel_subscriptions ch = some l → l ≠ []) ∧
    (∀ (s : WSState) (cid ch : String),
        dictLookup s.channel_subscriptions ch = some [cid] →
        dictLookup (unsubscribe_connection s cid
          ch).channel_subscriptions ch = none) ∧
    (∀ (s : WSState) (cid ch : String),
        (dKeys s.channel_subscriptions).Nodup →
        dictLookup s.channel_subscriptions ch = some [cid] →
        dictLookup (remove_connection s cid).channel_subscriptions ch = none) := by
  refine ⟨?_, ?_, ?_⟩
  · intro s hs ch l hl
    exact reachable_NE s hs (ch, l) (dictLookup_mem hl)
  · intro s cid ch hl
    rw [subs_unsub_eq]
    simp only [hl]
    have hemp : setDiscard [cid] cid = [] := by simp [setDiscard]
    rw [if_pos hemp, dictLookup_erase]
    simp
  · intro s cid ch hnd hl
    unfold remove_connection
    exact lookup_discard_map_none_of_nil s.channel_subscriptions cid ch [cid]
      hnd hl (by simp [setDiscard])

/-- Witness for C7: on the one-subscriber state, the reachable-state part
applied to the state reached by `connect(initial_channel="c")`, and both
deletion clauses applied concretely: `c` disappears from the index. -/
theorem c7_empty_channels_collected_witness :
    (["A"] ≠ ([] : List String)) ∧
    dictLookup (unsubscribe_connection sOneSub "A"
      "c").channel_subscriptions "c" = none ∧
    dictLookup (remove_connection sOneSub "A").channel_subscriptions "c" =
      none := by
  have h := c7_empty_channels_collected
  have hr : Reachable sOneSub := by
    have hstep := Reachable.step initState
      (Op.connectOp "A" ⟨1, false, none⟩ (some "c") "t0") Reachable.init
    have heq : applyOp initState
        (Op.connectOp "A" ⟨1, false, none⟩ (some "c") "t0") = sOneSub := by
      decide
    exact heq ▸ hstep
  exact ⟨h.1 sOneSub hr "c" ["A"] rfl,
         h.2.1 sOneSub "A" "c" rfl,
         h.2.2 sOneSub "A" "c" (by decide) rfl⟩

/-- C8: when the `exclude` websocket resolves (via the scan over
`active_connections`) to identity `cid`, broadcasting never attempts
delivery to `cid`, whether or not it subscribes to the channel. -/
theorem c8_exclude_never_delivered (s : WSState) (channel : String)
    (m : Msg) (ex : WS) (cid now : String)
    (hres : findId s.active_connections ex = some cid) :
    cid ∉ (broadcast_to_channel s channel m (some ex) now).attempted := by
  cases hb : dictLookup s.channel_subscriptions channel with
  | none =>
      rw [broadcast_state_none _ _ _ _ _ hb]
      simp
  | some l =>
      rw [broadcast_state_some _ _ _ _ _ l hb]
      dsimp only
      rw [fanOut_mem_att]
      rintro ⟨-, hex, -⟩
      exact hex (by simp [resolveExclude, hres])

/-- Witness for C8: excluding subscriber `A`'s handle on the two-subscriber
state keeps `A` out of the attempted list. -/
theorem c8_exclude_never_delivered_witness :
    "A" ∉ (broadcast_to_channel sTwoSub "c" []
      (some ⟨1, false, none⟩) "t1").attempted :=
  c8_exclude_never_delivered sTwoSub "c" [] ⟨1, false, none⟩ "A" "t1" rfl

/-- C9: both delivery operations mutate the caller's payload dict in place
(the embedding returns the caller-visible dict as `messageOut`): once a
broadcast reaches the delivery stage the caller's dict equals the original
updated with `channel` and `timestamp` — overwriting any pre-existing
values under those keys — and a send to a registered identity likewise
injects `timestamp`. -/
theorem c9_payload_mutated_in_place (s : WSState) (channel : String)
    (m : Msg) (ex : Option WS) (cid now : String) :
    ((dictLookup s.channel_subscriptions channel).isSome →
      (broadcast_to_channel s channel m ex now).messageOut =
        dictInsert (dictInsert m "channel" channel) "timestamp" now ∧
      dictLookup (broadcast_to_channel s channel m ex now).messageOut
        "channel" = some channel ∧
      dictLookup (broadcast_to_channel s channel m ex now).messageOut
        "timestamp" = some now) ∧
    ((dictLookup s.active_connections cid).isSome →
      (send_to_connection s cid m now).messageOut =
        dictInsert m "timestamp" now ∧
      dictLookup (send_to_connection s cid m now).messageOut "timestamp" =
        some now) := by
  constructor
  · intro hb
    obtain ⟨l, hl⟩ := Option.isSome_iff_exists.mp hb
    rw [broadcast_state_some s channel m ex now l hl]
    refine ⟨rfl, ?_, ?_⟩
    · dsimp only
      rw [dictLookup_insert]
      have hne : ¬ "timestamp" = "channel" := by decide
      rw [if_neg hne, dictLookup_insert, if_pos rfl]
    · dsimp only
      rw [dictLookup_insert, if_pos rfl]
  · intro ha
    obtain ⟨w, hwv⟩ := Option.isSome_iff_exists.mp ha
    cases hw : w.fails with
    | false =>
        rw [send_state_ok s cid m now w hwv hw]
        exact ⟨rfl, by dsimp only; rw [dictLookup_insert, if_pos rfl]⟩
    | true =>
        rw [send_state_fail s cid m now w hwv hw]
        exact ⟨rfl, by dsimp only; rw [dictLookup_insert, if_pos rfl]⟩

/-- Witness for C9: a payload that already carries `channel` and
`timestamp` fields has both overwritten in the caller's dict. -/
theorem c9_payload_mutated_in_place_witness :
    (broadcast_to_channel sOneSub "c" [("channel", "old"), ("k", "v")]
      none "t1").messageOut =
      [("channel", "c"), ("k", "v"), ("timestamp", "t1")] ∧
    (send_to_connection sOneSub "A" [("timestamp", "old")] "t1").messageOut =
      [("timestamp", "t1")] := by
  have h1 := (c9_payload_mutated_in_place sOneSub "c"
    [("channel", "old"), ("k", "v")] none "A" "t1").1 (by decide)
  have h2 := (c9_payload_mutated_in_place sOneSub "c"
    [("timestamp", "old")] none "A" "t1").2 (by decide)
  exact ⟨h1.1.trans (by decide), h2.1.trans (by decide)⟩

/-- C10: a subscriber identity present in the channel's set but absent from
the registry is silently skipped by a broadcast: no delivery attempt, not
recorded as failed, its registry entry (absent before) untouched, and it is
still in the channel's subscriber set after the broadcast. -/
theorem c10_ghost_subscriber_skipped (s : WSState) (channel : String)
    (m : Msg) (ex : Option WS) (now : String) (subs : List String)
    (g : String)
    (hsubs : dictLookup s.channel_subscriptions channel = some subs)
    (hnd : (dKeys s.channel_subscriptions).Nodup)
    (hg : g ∈ subs)
    (hun : dictLookup s.active_connections g = none) :
    g ∉ (broadcast_to_channel s channel m ex now).attempted ∧
    g ∉ (broadcast_to_channel s channel m ex now).failed ∧
    g ∈ subsOf (broadcast_to_channel s channel m ex now).state channel ∧
    dictLookup (broadcast_to_channel s channel m ex
      now).state.active_connections g = none := by
  rw [broadcast_state_some s channel m ex now subs hsubs]
  dsimp only
  have hgf : g ∉ (fanOut s.active_connections (resolveExclude s ex) subs).2 := by
    rw [fanOut_mem_failed]
    rintro ⟨-, -, w, hw, -⟩
    rw [hun] at hw
    exact Option.noConfusion hw
  refine ⟨?_, hgf, ?_, ?_⟩
  · rw [fanOut_mem_att]
    rintro ⟨-, -, hsome⟩
    rw [hun] at hsome
    simp at hsome
  · rw [mem_subsOf_foldRemove _ _ _ _ hnd]
    refine ⟨?_, hgf⟩
    simp [subsOf, hsubs, hg]
  · rw [foldRemove_active]
    simp [hgf, hun]

/-- Witness for C10 on the state with stale identity `ghost` in channel
`c`: the broadcast skips it and leaves it subscribed. -/
theorem c10_ghost_subscriber_skipped_witness :
    "ghost" ∉ (broadcast_to_channel sGhost "c" [] none "t1").attempted ∧
    "ghost" ∈ subsOf (broadcast_to_channel sGhost "c" [] none "t1").state
      "c" := by
  have h := c10_ghost_subscriber_skipped sGhost "c" [] none "t1"
    ["A", "ghost"] "ghost" rfl (by decide) (by decide) rfl
  exact ⟨h.1, h.2.2.1⟩
